import Mathlib

/-!
# Verification of the `turnup` update orchestration pipeline

Shallow embedding of the repository's update orchestration code:

* `src/actions/update.js` — the orchestrator (`update`, `updateAll`), the
  per-repository publish pipeline (`updateRepository`, `updateRepositoryAll`,
  `commitUpdates`) and repository gathering (`fetchRepositories`);
* the GitHub platform adapter (`fetchRepositoriesByOwner`,
  `fetchPackageDefinitions`, `commitPackageDefinition`, `createPullRequest`).

JavaScript machine behaviour is made explicit: a rejected promise or a thrown
exception is `Except.error`; `undefined` fields are `Option.none`;
dereferencing a property of `undefined` raises a `TypeError`; the in-place
mutation of the decoded manifest object is modelled with an explicit heap of
manifest objects addressed by natural numbers.
-/

namespace Turnup

/-- A JavaScript error value, classified by what the adapter code inspects:
`err.statusCode` (present on HTTP errors, absent on others) and `TypeError`
raised by dereferencing a property of `undefined`. -/
inductive JsError where
  | http (statusCode : Nat)
  | typeError (msg : String)
  | other (msg : String)
  deriving Repr, DecidableEq

/-- Projection `err.statusCode` as the JS code reads it: present only on HTTP errors. -/
def JsError.statusCode : JsError → Option Nat
  | .http c => some c
  | _ => none

/-- An ordered association list of `key: version` pairs, modelling a JS
object such as the `dependencies` map of a `package.json` (JS objects keep
string-key insertion order). -/
abbrev DepMap := List (String × String)

/-- Lookup of `obj[key]` on a dependency map: first binding wins. -/
def depLookup (m : DepMap) (key : String) : Option String :=
  match m.find? (fun p => p.1 = key) with
  | some p => some p.2
  | none => none

/-- Assignment `obj[key] = value` on a dependency map: updates the existing
binding in place (keeping its position) or appends a new one. -/
def depSet (m : DepMap) (key value : String) : DepMap :=
  match m with
  | [] => [(key, value)]
  | p :: rest =>
      if p.1 = key then (key, value) :: rest
      else p :: depSet rest key value

/-- The decoded `package.json` manifest object. -/
structure Manifest where
  name : String
  dependencies : DepMap
  devDependencies : DepMap
  deriving Repr, DecidableEq

/-- Field `packageDefinition`: the fetched manifest (`decoded`) together with the
content hash (`sha`) reported by the platform. -/
structure PackageDefinition where
  decoded : Manifest
  sha : String
  deriving Repr, DecidableEq

/-- Field `dependencyRelationship` attached by the classifier: dependency type
(`"dev"` or `"prod"`), the target package and version, and the version that
was declared before the update. -/
structure DependencyRelationship where
  type : String
  packageName : String
  packageVersion : String
  currentVersion : String
  deriving Repr, DecidableEq

/-- Field `lockfileEntity`: metadata about a remote lockfile. -/
structure LockfileEntity where
  packageManager : String
  content : String
  deriving Repr, DecidableEq

/-- The repository entity: identity fields set at creation, optional workflow
state attached stage by stage (`none` is JS `undefined`). -/
structure RepositoryEntity where
  name : String
  fullName : String
  defaultBranch : String
  packageDefinition : Option PackageDefinition := none
  dependencyRelationship : Option DependencyRelationship := none
  lockfileEntity : Option LockfileEntity := none
  deriving Repr, DecidableEq

/-! ## Repository gathering and deduplication (`fetchRepositories`, update.js 113–131) -/

/-- One step of the `reduce` in `fetchRepositories`: push `value` unless an
entity with the same `fullName` has already been kept (`reduction.find`). -/
def dedupStep (reduction : List RepositoryEntity) (value : RepositoryEntity) :
    List RepositoryEntity :=
  match reduction.find? (fun repo => repo.fullName = value.fullName) with
  | some _ => reduction
  | none => reduction ++ [value]

/-- The deduplication `reduce` of `fetchRepositories`: fold `dedupStep` over
the concatenated discovery list starting from the empty list. -/
def dedupByFullName (l : List RepositoryEntity) : List RepositoryEntity :=
  l.foldl dedupStep []

/-- The `owner` option is used iff it is a non-empty string
(`typeof owner === 'string' && owner.length > 0`). -/
def ownerValid : Option String → Bool
  | some s => s.length > 0
  | none => false

/-- The discovery list of `fetchRepositories`: results for the explicit name
list (queried only when `repos.length > 0`) concatenated with the by-owner
results (queried only when the owner option is a non-empty string). The
adapter's responses are parameters (`byName`, `byOwner`). -/
def discoveryList (byName byOwner : List RepositoryEntity)
    (reposOpt : List String) (owner : Option String) : List RepositoryEntity :=
  (if reposOpt.length > 0 then byName else []) ++
    (if ownerValid owner then byOwner else [])

/-- Function `fetchRepositories` (update.js 113–131): gather by name list and/or owner,
then deduplicate by `fullName`. -/
def fetchRepositories (byName byOwner : List RepositoryEntity)
    (reposOpt : List String) (owner : Option String) : List RepositoryEntity :=
  dedupByFullName (discoveryList byName byOwner reposOpt owner)

/-- Structural-recursion description of the dedup fold: skip entities whose
`fullName` has been seen, keep the rest in order. -/
def dedupAux (seen : List String) : List RepositoryEntity → List RepositoryEntity
  | [] => []
  | x :: xs =>
      if x.fullName ∈ seen then dedupAux seen xs
      else x :: dedupAux (x.fullName :: seen) xs

/-! ## The GitHub adapter: resolution by owner (`fetchRepositoriesByOwner`) -/

/-- A raw repository payload from the platform API. -/
structure RawRepo where
  name : String
  full_name : String
  default_branch : String
  deriving Repr, DecidableEq

/-- Helper `createRepositoryEntity` in the adapter: build the entity from the raw
payload; the optional workflow fields start out `undefined`. -/
def createRepositoryEntity (raw : RawRepo) : RepositoryEntity :=
  { name := raw.name, fullName := raw.full_name, defaultBranch := raw.default_branch }

/-- A dynamically-typed API response, as far as the adapter inspects it:
either an array of raw repositories or some non-array value. -/
inductive ApiValue where
  | arr (repos : List RawRepo)
  | nonArray
  deriving Repr, DecidableEq

/-- The two owner-resolution queries the adapter can issue. -/
inductive OwnerQuery where
  | userRepos
  | orgRepos
  deriving Repr, DecidableEq

/-- The adapter's fallback test on the user-repositories response:
`!Array.isArray(ownerRepos) || ownerRepos.length === 0`. -/
def lacksRepos : ApiValue → Bool
  | .arr rs => rs.length = 0
  | .nonArray => true

/-- Method `fetchRepositoriesByOwner`: query user repositories first; when the
response is a non-array or an empty array, query organization repositories
and use that response instead. Returns the list of queries issued (in order)
and the response used. The two API responses are parameters. -/
def fetchRepositoriesByOwner (userResult orgResult : ApiValue) :
    List OwnerQuery × ApiValue :=
  if lacksRepos userResult then
    ([OwnerQuery.userRepos, OwnerQuery.orgRepos], orgResult)
  else
    ([OwnerQuery.userRepos], userResult)

/-- The entities `fetchRepositoriesByOwner` returns:
`ownerRepos.map(createRepositoryEntity)` on the response used; calling `.map`
on a non-array value raises a `TypeError`. -/
def fetchRepositoriesByOwnerEntities (userResult orgResult : ApiValue) :
    Except JsError (List RepositoryEntity) :=
  match (fetchRepositoriesByOwner userResult orgResult).2 with
  | .arr rs => .ok (rs.map createRepositoryEntity)
  | .nonArray => .error (.typeError "ownerRepos.map is not a function")

/-! ## The GitHub adapter: manifest fetch (`fetchPackageDefinitions`) -/

/-- The body of the per-repository closure in `fetchPackageDefinitions`:
attach the fetched `packageDefinition`; catch a fetch error and return the
entity unchanged when `err.statusCode === 404`, rethrow otherwise. The
manifest fetch (`getPackageJson`) is a parameter. -/
def fetchPackageDefinitionOne
    (getPackageJson : RepositoryEntity → Except JsError PackageDefinition)
    (repository : RepositoryEntity) : Except JsError RepositoryEntity :=
  match getPackageJson repository with
  | .ok packageDefinition => .ok { repository with packageDefinition := some packageDefinition }
  | .error err =>
      if err.statusCode = some 404 then .ok repository else .error err

/-- Method `fetchPackageDefinitions`: run the per-repository closure over the list;
the combined promise rejects with the first per-repository error. -/
def fetchPackageDefinitions
    (getPackageJson : RepositoryEntity → Except JsError PackageDefinition) :
    List RepositoryEntity → Except JsError (List RepositoryEntity)
  | [] => .ok []
  | r :: rs =>
      match fetchPackageDefinitionOne getPackageJson r with
      | .error e => .error e
      | .ok r' =>
          match fetchPackageDefinitions getPackageJson rs with
          | .error e => .error e
          | .ok rs' => .ok (r' :: rs')

/-! ## Dependency classifier (`packages.filter.repositoriesByDependencyUpgrade`) -/

/-- Attach a `dependencyRelationship` to a repository entity. -/
def withRelationship (repo : RepositoryEntity)
    (ty targetName targetVersion cur : String) : RepositoryEntity :=
  let rel : DependencyRelationship :=
    { type := ty, packageName := targetName,
      packageVersion := targetVersion, currentVersion := cur }
  { repo with dependencyRelationship := some rel }

/-- Classification against the `devDependencies` map: include with a `"dev"`
relationship when the declared version exists and differs from the target. -/
def classifyDev (targetName targetVersion : String) (repo : RepositoryEntity)
    (devDecl : Option String) : Option RepositoryEntity :=
  match devDecl with
  | some cur =>
      if cur ≠ targetVersion then
        some (withRelationship repo "dev" targetName targetVersion cur)
      else none
  | none => none

/-- Modelled from the spec: the dependency classifier
`packages.filter.repositoriesByDependencyUpgrade` lives in the repository's
`packages` module, which is not among the sources at hand. Following spec
§4.1: repositories without a `packageDefinition` are excluded; a repository
is included iff `dependencies` or `devDependencies` declares the target
package with a version different from the target version, and it then carries
a `dependencyRelationship` whose `type` names the map that matched and whose
`currentVersion` is the previously-declared version. -/
def classifyRepository (targetName targetVersion : String)
    (repo : RepositoryEntity) : Option RepositoryEntity :=
  match repo.packageDefinition with
  | none => none
  | some pd =>
      match depLookup pd.decoded.dependencies targetName with
      | some cur =>
          if cur ≠ targetVersion then
            some (withRelationship repo "prod" targetName targetVersion cur)
          else
            classifyDev targetName targetVersion repo
              (depLookup pd.decoded.devDependencies targetName)
      | none =>
          classifyDev targetName targetVersion repo
            (depLookup pd.decoded.devDependencies targetName)

/-- Modelled from the spec: the list-level classifier keeps, in input order,
the repositories `classifyRepository` includes. -/
def repositoriesByDependencyUpgrade (repos : List RepositoryEntity)
    (targetName targetVersion : String) : List RepositoryEntity :=
  repos.filterMap (classifyRepository targetName targetVersion)

/-! ## The publish pipeline (`updateRepository`, `updateRepositoryAll`,
`commitUpdates`, update.js 56–111) -/

/-- The action tag of the single-package flow. -/
def ACTION : String := "turnup.update"

/-- The action tag of the bulk flow. -/
def ALL_ACTION : String := "turnup.update.all"

/-- The observable steps of one publish-pipeline run. -/
inductive Step where
  | mutateManifest
  | format
  | fetchLockfile
  | generateLockfile
  | createBranch
  | commit
  | pullRequest
  deriving Repr, DecidableEq

/-- The options record threaded through the pipeline. -/
structure Options where
  noLockfile : Bool := false
  noPullRequest : Bool := false
  registry : Option String := none

/-- Title and body of a pull request. -/
structure PullRequestText where
  title : String
  body : String
  deriving Repr, DecidableEq

/-- Helper `getCommitMessage` (update.js 28–36): the single-package message
dereferences `repo.dependencyRelationship` (a `TypeError` when it is
`undefined`); the bulk message is a constant. -/
def getCommitMessage (repo : RepositoryEntity) (action : String) :
    Except JsError String :=
  if action = ACTION then
    match repo.dependencyRelationship with
    | none => .error (.typeError "Cannot read property type of undefined")
    | some rel =>
        .ok ("[turnup] Auto update of " ++ rel.type ++ " dependency " ++
          rel.packageName ++ "@" ++ rel.packageVersion)
  else
    .ok "[turnup] Auto update of package dependencies"

/-- Helper `getPullRequest` (update.js 38–54): the dependency-specific text is built
only when `action` is the single-package tag; the call site in `commitUpdates`
passes no `action` argument, so `action` is `none` there. -/
def getPullRequest (repo : RepositoryEntity) (action : Option String) :
    Except JsError PullRequestText :=
  if action = some ACTION then
    match repo.dependencyRelationship with
    | none => .error (.typeError "Cannot read property packageName of undefined")
    | some rel =>
        .ok { title := "Update Dependency - " ++ rel.packageName ++ "@" ++ rel.packageVersion,
              body := "Update the package.json dependency." }
  else
    .ok { title := "Update Dependencies",
          body := "Update the package.json dependencies within specified range." }

/-- The platform adapter as the pipeline sees it; each operation either
succeeds with a value or rejects with an error. The `fetchLockfileDefinition`
operation is modelled from the spec's adapter contract
(`fetchLockfileDefinition(repo) -> LockfileEntity | undefined`): its
implementation is not among the sources at hand. -/
structure AdapterStub where
  fetchLockfileDefinition : RepositoryEntity → Except JsError (Option LockfileEntity)
  createBranch : RepositoryEntity → String → Except JsError Unit
  commitPackageDefinition :
    RepositoryEntity → String → String → Option String → String → Except JsError Unit
  createPullRequest : RepositoryEntity → String → PullRequestText → Except JsError Unit

/-- Sequencing of traced pipeline phases: keep the trace of the first phase
and stop on its error, otherwise run the continuation and append its trace. -/
def stepBind {α β : Type} (x : List Step × Except JsError α)
    (f : α → List Step × Except JsError β) : List Step × Except JsError β :=
  match x with
  | (tr, .error e) => (tr, .error e)
  | (tr, .ok a) =>
      let y := f a
      (tr ++ y.1, y.2)

/-- The lockfile block of `commitUpdates` (update.js 85–93): skipped whole
when `options.noLockfile`; otherwise fetch the current lockfile through the
adapter; `undefined` skips regeneration; an entity is attached to the
repository and the lockfile generator `create` is invoked with the formatted
manifest, the entity's package manager and the registry option. -/
def lockfilePhase (adapter : AdapterStub)
    (create : String → String → Option String → Except JsError String)
    (options : Options) (repository : RepositoryEntity)
    (formattedPackageDef : String) :
    List Step × Except JsError (RepositoryEntity × Option String) :=
  if options.noLockfile then ([], .ok (repository, none))
  else
    match adapter.fetchLockfileDefinition repository with
    | .error e => ([Step.fetchLockfile], .error e)
    | .ok none => ([Step.fetchLockfile], .ok (repository, none))
    | .ok (some currentLockFile) =>
        match create formattedPackageDef currentLockFile.packageManager options.registry with
        | .error e => ([Step.fetchLockfile, Step.generateLockfile], .error e)
        | .ok updatedLockFile =>
            ([Step.fetchLockfile, Step.generateLockfile],
             .ok ({ repository with lockfileEntity := some currentLockFile },
                  some updatedLockFile))

/-- The commit block of `commitUpdates` (update.js 98–105): the message is
computed as an argument, then the adapter's commit operation is invoked. -/
def commitPhase (adapter : AdapterStub) (action : String)
    (repository : RepositoryEntity) (branchName formattedPackageDef : String)
    (updatedLockFile : Option String) : List Step × Except JsError Unit :=
  match getCommitMessage repository action with
  | .error e => ([], .error e)
  | .ok msg =>
      ([Step.commit],
       adapter.commitPackageDefinition repository branchName formattedPackageDef
         updatedLockFile msg)

/-- The pull-request block of `commitUpdates` (update.js 107–110): skipped
when `options.noPullRequest`; the call site passes no action to
`getPullRequest`. -/
def prPhase (adapter : AdapterStub) (options : Options)
    (repository : RepositoryEntity) (branchName : String) :
    List Step × Except JsError Unit :=
  if options.noPullRequest then ([], .ok ())
  else
    match getPullRequest repository none with
    | .error e => ([], .error e)
    | .ok pr => ([Step.pullRequest], adapter.createPullRequest repository branchName pr)

/-- Function `commitUpdates` (update.js 80–111): format the manifest, run the lockfile
block, create the branch, commit, and run the pull-request block, in that
order, stopping at the first error. Returns the trace of steps run and the
outcome. -/
def commitUpdates (action : String) (adapter : AdapterStub)
    (formatPackage : Manifest → Except JsError String)
    (create : String → String → Option String → Except JsError String)
    (options : Options) (repository : RepositoryEntity)
    (branchName : String) (packageDef : Manifest) :
    List Step × Except JsError Unit :=
  stepBind ([Step.format], formatPackage packageDef) fun formattedPackageDef =>
  stepBind (lockfilePhase adapter create options repository formattedPackageDef)
    fun st =>
  stepBind ([Step.createBranch], adapter.createBranch st.1 branchName) fun _ =>
  stepBind (commitPhase adapter action st.1 branchName formattedPackageDef st.2)
    fun _ =>
  prPhase adapter options st.1 branchName

/-- The manifest-mutation part of `updateRepository` (update.js 60–67), as the
value handed to `commitUpdates`: dereference `packageDefinition.decoded` and
`dependencyRelationship.type` (each a `TypeError` on `undefined`) and assign
the target version into `devDependencies` or `dependencies`. -/
def updateRepositoryMutate (repo : RepositoryEntity)
    (packageName packageVersion : String) : Except JsError Manifest :=
  match repo.packageDefinition with
  | none => .error (.typeError "Cannot read property decoded of undefined")
  | some pd =>
      match repo.dependencyRelationship with
      | none => .error (.typeError "Cannot read property type of undefined")
      | some rel =>
          let m := pd.decoded
          .ok (if rel.type = "dev" then
                { m with devDependencies := depSet m.devDependencies packageName packageVersion }
              else
                { m with dependencies := depSet m.dependencies packageName packageVersion })

/-- One full single-package publish-pipeline run for one repository
(`updateRepository` followed by its `commitUpdates`): the mutation step, then
the `commitUpdates` sequence under the single-package action tag and the
branch name `turnup/<package>@<version>`. -/
def publishPipeline (adapter : AdapterStub)
    (formatPackage : Manifest → Except JsError String)
    (create : String → String → Option String → Except JsError String)
    (options : Options) (repo : RepositoryEntity)
    (packageName packageVersion : String) : List Step × Except JsError Unit :=
  let branchName := "turnup/" ++ packageName ++ "@" ++ packageVersion
  match updateRepositoryMutate repo packageName packageVersion with
  | .error e => ([Step.mutateManifest], .error e)
  | .ok packageDef =>
      let y := commitUpdates ACTION adapter formatPackage create options repo
        branchName packageDef
      (Step.mutateManifest :: y.1, y.2)

/-- One bulk publish-pipeline run for one repository (`updateRepositoryAll`,
update.js 72–78): dereference `packageDefinition.decoded` and run
`commitUpdates` under the bulk action tag and branch `turnup/update-all`. -/
def updateAllPipeline (adapter : AdapterStub)
    (formatPackage : Manifest → Except JsError String)
    (update : String → String → Option String → Except JsError String)
    (options : Options) (repo : RepositoryEntity) :
    List Step × Except JsError Unit :=
  match repo.packageDefinition with
  | none => ([], .error (.typeError "Cannot read property decoded of undefined"))
  | some pd =>
      commitUpdates ALL_ACTION adapter formatPackage update options repo
        "turnup/update-all" pd.decoded

/-! ## The series of per-repository pipeline runs (update.js 179, 211)

`updateRepository` is queued in an `async.series` task list and the series
result is awaited inside the `try`/`catch` that reports fatal errors. The
body of `updateRepository` launches `commitUpdates(...)` without `await`
(update.js 69; likewise 77 for the bulk flow), so each task's promise settles
when the synchronous prefix finishes, the detached `commitUpdates` promise is
never observed by the series, and its rejection cannot reach the
`catch`/`fatal` path. -/

/-- The series run over a repository list under the actual (no-`await`)
semantics: a task fails only if its synchronous prefix throws; the detached
`commitUpdates` outcome of each invoked task is recorded separately as an
unobserved promise. Returns the repositories whose pipeline was invoked, the
detached outcomes in order, and the series result (what the `catch` around
`await promisify(async.series)` can see). -/
def updateSeries (adapter : AdapterStub)
    (formatPackage : Manifest → Except JsError String)
    (create : String → String → Option String → Except JsError String)
    (options : Options) (packageName packageVersion : String) :
    List RepositoryEntity →
      List RepositoryEntity × List (Except JsError Unit) × Except JsError Unit
  | [] => ([], [], .ok ())
  | r :: rs =>
      match updateRepositoryMutate r packageName packageVersion with
      | .error e => ([r], [], .error e)
      | .ok packageDef =>
          let detached := (commitUpdates ACTION adapter formatPackage create options r
            ("turnup/" ++ packageName ++ "@" ++ packageVersion) packageDef).2
          let y := updateSeries adapter formatPackage create options packageName
            packageVersion rs
          (r :: y.1, detached :: y.2.1, y.2.2)

/-! ## The GitHub adapter's commit and pull-request operations -/

/-- A `getContents` response: base64 content and the blob sha. -/
structure RemoteContents where
  content : String
  sha : String
  deriving Repr, DecidableEq

/-- One queued `createContents` call: target branch, path, the sha being
replaced, the new contents and the commit message. -/
structure FileWrite where
  branch : String
  path : String
  sha : String
  contents : String
  message : String
  deriving Repr, DecidableEq

/-- A branch ref object (`ref.object.sha`). -/
structure RefObject where
  sha : String
  deriving Repr, DecidableEq

/-- The GitHub REST layer as the adapter calls it. -/
structure ApiStub where
  getContents : String → String → Except JsError RemoteContents
  createContents : FileWrite → Except JsError Unit
  getRef : String → String → Except JsError RefObject
  createRef : String → String → String → Except JsError Unit
  createPull : String → String → String → String → String → Except JsError Unit

/-- Sequential execution of the queued writes (`promisify(async.series)` over
the bound `createContents` calls): stop at the first error, otherwise report
the writes performed in order. -/
def runWriteSeries (api : ApiStub) : List FileWrite → Except JsError (List FileWrite)
  | [] => .ok []
  | w :: ws =>
      match api.createContents w with
      | .error e => .error e
      | .ok _ =>
          match runWriteSeries api ws with
          | .error e => .error e
          | .ok done => .ok (w :: done)

/-- The commit message the GitHub adapter builds for one file. -/
def commitMessageFor (rel : DependencyRelationship) (file : String) : String :=
  "[turnup] Auto update of " ++ rel.type ++ " dependency " ++ rel.packageName ++
    "@" ++ rel.packageVersion ++ " - " ++ file

/-- Method `GitHub#commitPackageDefinition`: build the `package.json` write (reading
`repository.dependencyRelationship` and `repository.packageDefinition.sha`
unconditionally — a `TypeError` when either is `undefined`); when an updated
lockfile was produced, probe for the remote `package-lock.json` and queue its
write, swallowing a 404 from the probe (lockfile write abandoned) and
rethrowing any other probe error; finally run the queued writes in series. -/
def GitHub.commitPackageDefinition (api : ApiStub) (repository : RepositoryEntity)
    (branchName packageDefinition : String) (lockFile : Option String) :
    Except JsError (List FileWrite) :=
  match repository.dependencyRelationship with
  | none => .error (.typeError "Cannot read property type of undefined")
  | some rel =>
      match repository.packageDefinition with
      | none => .error (.typeError "Cannot read property sha of undefined")
      | some pd =>
          let w1 : FileWrite :=
            { branch := branchName, path := "package.json", sha := pd.sha,
              contents := packageDefinition,
              message := commitMessageFor rel "package.json" }
          match lockFile with
          | none => runWriteSeries api [w1]
          | some lf =>
              match api.getContents repository.fullName "package-lock.json" with
              | .ok lockFileRemote =>
                  runWriteSeries api
                    [w1,
                     { branch := branchName, path := "package-lock.json",
                       sha := lockFileRemote.sha, contents := lf,
                       message := commitMessageFor rel "package-lock.json" }]
              | .error err =>
                  if err.statusCode ≠ some 404 then .error err
                  else runWriteSeries api [w1]

/-- Method `GitHub#createBranch`: resolve the default branch head and create the
ref. -/
def GitHub.createBranch (api : ApiStub) (repository : RepositoryEntity)
    (branchName : String) : Except JsError Unit :=
  match api.getRef repository.fullName repository.defaultBranch with
  | .error e => .error e
  | .ok defaultBranchRef =>
      api.createRef repository.fullName branchName defaultBranchRef.sha

/-- Method `GitHub#createPullRequest`: reads `repository.dependencyRelationship`
unconditionally (a `TypeError` when it is `undefined`) to build the title and
body, then opens the pull request. -/
def GitHub.createPullRequest (api : ApiStub) (repository : RepositoryEntity)
    (branchName : String) : Except JsError Unit :=
  match repository.dependencyRelationship with
  | none => .error (.typeError "Cannot read property packageName of undefined")
  | some rel =>
      let depString := rel.packageName ++ "@" ++ rel.packageVersion
      api.createPull repository.fullName repository.defaultBranch branchName
        ("Update Dependency - " ++ depString)
        ("Update the package.json dependency for " ++ depString ++ ".")

/-- The pipeline-facing adapter backed by the GitHub implementations. The
extra message and pull-request-text arguments the orchestrator passes are
dropped, as surplus arguments are in JS. -/
def gitHubAdapter (api : ApiStub)
    (lockfileDef : RepositoryEntity → Except JsError (Option LockfileEntity)) :
    AdapterStub where
  fetchLockfileDefinition := lockfileDef
  createBranch := fun repo bn => GitHub.createBranch api repo bn
  commitPackageDefinition := fun repo bn fmt lf _msg =>
    match GitHub.commitPackageDefinition api repo bn fmt lf with
    | .error e => .error e
    | .ok _ => .ok ()
  createPullRequest := fun repo bn _pr => GitHub.createPullRequest api repo bn

/-! ## Heap model of the manifest-mutation step (update.js 61–67)

The decoded manifest is a JS object held by reference from the entity's
`packageDefinition`; `packageDef.dependencies[packageName] = packageVersion`
writes through that reference. -/

/-- A heap of manifest objects; an address is an index. -/
abbrev Heap := List Manifest

instance : Inhabited Manifest := ⟨{ name := "", dependencies := [], devDependencies := [] }⟩

/-- Field `packageDefinition` as held by a live entity: `decoded` is a reference
into the heap. -/
structure PackageDefinitionRef where
  decoded : Nat
  sha : String
  deriving Repr, DecidableEq

/-- A repository entity whose manifest is held by reference. -/
structure RepositoryEntityRef where
  name : String
  fullName : String
  defaultBranch : String
  packageDefinition : Option PackageDefinitionRef := none
  dependencyRelationship : Option DependencyRelationship := none
  lockfileEntity : Option LockfileEntity := none
  deriving Repr, DecidableEq

/-- The manifest value observable from an entity by dereferencing its
`packageDefinition.decoded` pointer. -/
def observeManifest (h : Heap) (repo : RepositoryEntityRef) : Option Manifest :=
  repo.packageDefinition.map (fun pd => h.getD pd.decoded default)

/-- The manifest-mutation step of `updateRepository` on the heap: read the
decoded manifest through the entity's reference, assign the target version
into `devDependencies` or `dependencies` according to
`dependencyRelationship.type`, and write the result back through the same
reference. Returns the updated heap and the address of the manifest object
handed on to `commitUpdates`. -/
def mutateManifestStep (h : Heap) (repo : RepositoryEntityRef)
    (packageName packageVersion : String) : Except JsError (Heap × Nat) :=
  match repo.packageDefinition with
  | none => .error (.typeError "Cannot read property decoded of undefined")
  | some pd =>
      match repo.dependencyRelationship with
      | none => .error (.typeError "Cannot read property type of undefined")
      | some rel =>
          let m := h.getD pd.decoded default
          let m' := if rel.type = "dev" then
              { m with devDependencies := depSet m.devDependencies packageName packageVersion }
            else
              { m with dependencies := depSet m.dependencies packageName packageVersion }
          .ok (h.set pd.decoded m', pd.decoded)

/-! ## Concrete fixtures used by witnesses and counterexamples -/

/-- Manifest of fixture repository `o/a`: depends on `lodash@4.17.0`. -/
def exManifestA : Manifest :=
  { name := "repo-a", dependencies := [("lodash", "4.17.0")], devDependencies := [] }

/-- Fixture package definition for `o/a`. -/
def exPackageDefA : PackageDefinition := { decoded := exManifestA, sha := "shaA" }

/-- Fixture relationship: `lodash` is a prod dependency currently at
`4.17.0`, target `4.17.21`. -/
def exRelA : DependencyRelationship :=
  { type := "prod", packageName := "lodash", packageVersion := "4.17.21",
    currentVersion := "4.17.0" }

/-- Fixture repository `o/a`, classified and ready for the pipeline. -/
def exRepoA : RepositoryEntity :=
  { name := "repo-a", fullName := "o/a", defaultBranch := "master",
    packageDefinition := some exPackageDefA, dependencyRelationship := some exRelA }

/-- Fixture repository `o/b`, like `o/a` but with manifest name `repo-b`. -/
def exRepoB : RepositoryEntity :=
  { name := "repo-b", fullName := "o/b", defaultBranch := "master",
    packageDefinition := some { decoded := { name := "repo-b", dependencies := [("lodash", "4.16.0")], devDependencies := [] }, sha := "shaB" },
    dependencyRelationship := some { type := "prod", packageName := "lodash", packageVersion := "4.17.21", currentVersion := "4.16.0" } }

/-- Fixture repository `o/c`, like `o/a` but with manifest name `repo-c`. -/
def exRepoC : RepositoryEntity :=
  { name := "repo-c", fullName := "o/c", defaultBranch := "master",
    packageDefinition := some { decoded := { name := "repo-c", dependencies := [("lodash", "4.15.0")], devDependencies := [] }, sha := "shaC" },
    dependencyRelationship := some { type := "prod", packageName := "lodash", packageVersion := "4.17.21", currentVersion := "4.15.0" } }

/-- An adapter whose operations all succeed, except that `createBranch`
rejects with HTTP 500 on repository `o/b`. -/
def exAdapterBranchFailsOnB : AdapterStub where
  fetchLockfileDefinition := fun _ => .ok none
  createBranch := fun repo _ =>
    if repo.fullName = "o/b" then .error (.http 500) else .ok ()
  commitPackageDefinition := fun _ _ _ _ _ => .ok ()
  createPullRequest := fun _ _ _ => .ok ()

/-- Fixture repository `o/n`, gathered but without a manifest on the remote. -/
def exRepoNoManifest : RepositoryEntity :=
  { name := "repo-n", fullName := "o/n", defaultBranch := "master" }

/-- A manifest fetch that succeeds on `o/a` and 404s elsewhere. -/
def exGetPackageJson : RepositoryEntity → Except JsError PackageDefinition :=
  fun r => if r.fullName = "o/a" then .ok exPackageDefA else .error (.http 404)

/-- A manifest formatter that always succeeds (serialization is irrelevant
here: the formatted text is the manifest's name). -/
def exFormat : Manifest → Except JsError String := fun m => .ok m.name

/-- A lockfile generator stub that always succeeds. -/
def exCreateLockfile : String → String → Option String → Except JsError String :=
  fun _ _ _ => .ok "lock"

/-- Fixture repository `o/a` as gathered and fetched, before classification:
manifest attached, no `dependencyRelationship` yet. -/
def exRepoA0 : RepositoryEntity :=
  { name := "repo-a", fullName := "o/a", defaultBranch := "master",
    packageDefinition := some exPackageDefA }

/-- Fixture remote lockfile entity. -/
def exLockfile : LockfileEntity := { packageManager := "npm", content := "lockv1" }

/-- An adapter whose operations all succeed and whose lockfile fetch finds
`exLockfile`. -/
def exAdapterAllOk : AdapterStub where
  fetchLockfileDefinition := fun _ => .ok (some exLockfile)
  createBranch := fun _ _ => .ok ()
  commitPackageDefinition := fun _ _ _ _ _ => .ok ()
  createPullRequest := fun _ _ _ => .ok ()

/-- A REST layer whose calls all succeed. -/
def exApiAllOk : ApiStub where
  getContents := fun _ _ => .ok { content := "", sha := "s" }
  createContents := fun _ => .ok ()
  getRef := fun _ _ => .ok { sha := "head" }
  createRef := fun _ _ _ => .ok ()
  createPull := fun _ _ _ _ _ => .ok ()

/-- A REST layer with no remote `package-lock.json`: probing it 404s, all
other calls succeed. -/
def exApi404Lock : ApiStub where
  getContents := fun _ path =>
    if path = "package-lock.json" then .error (.http 404)
    else .ok { content := "", sha := "s" }
  createContents := fun _ => .ok ()
  getRef := fun _ _ => .ok { sha := "head" }
  createRef := fun _ _ _ => .ok ()
  createPull := fun _ _ _ _ _ => .ok ()

/-- Fixture heap: one manifest object, at address 0. -/
def exHeap0 : Heap := [exManifestA]

/-- Fixture by-reference entity for `o/a`: its `packageDefinition.decoded`
points at address 0 of the heap. -/
def exRepoRefA : RepositoryEntityRef :=
  { name := "repo-a", fullName := "o/a", defaultBranch := "master",
    packageDefinition := some { decoded := 0, sha := "shaA" },
    dependencyRelationship := some exRelA }

/-! ### Deduplication lemmas -/

theorem dedupAux_congr (l : List RepositoryEntity) :
    ∀ seen seen', (∀ s, s ∈ seen ↔ s ∈ seen') → dedupAux seen l = dedupAux seen' l := by
  induction l with
  | nil => intro seen seen' _; rfl
  | cons x xs ih =>
      intro seen seen' h
      simp only [dedupAux]
      by_cases hx : x.fullName ∈ seen
      · rw [if_pos hx, if_pos ((h _).mp hx), ih _ _ h]
      · rw [if_neg hx, if_neg (fun hc => hx ((h _).mpr hc))]
        congr 1
        apply ih
        intro s
        simp only [List.mem_cons]
        exact or_congr Iff.rfl (h s)

theorem mem_dedupAux {seen : List String} {l : List RepositoryEntity}
    {w : RepositoryEntity} (hw : w ∈ dedupAux seen l) :
    w.fullName ∉ seen ∧ w ∈ l := by
  induction l generalizing seen with
  | nil => simp [dedupAux] at hw
  | cons x xs ih =>
      simp only [dedupAux] at hw
      by_cases hx : x.fullName ∈ seen
      · rw [if_pos hx] at hw
        obtain ⟨h1, h2⟩ := ih hw
        exact ⟨h1, List.mem_cons_of_mem _ h2⟩
      · rw [if_neg hx] at hw
        rcases List.mem_cons.mp hw with rfl | hw'
        · exact ⟨hx, List.mem_cons_self _ _⟩
        · obtain ⟨h1, h2⟩ := ih hw'
          refine ⟨fun hc => h1 (List.mem_cons_of_mem _ hc), List.mem_cons_of_mem _ h2⟩

theorem dedupAux_pairwise (seen : List String) (l : List RepositoryEntity) :
    (dedupAux seen l).Pairwise (fun a b => a.fullName ≠ b.fullName) := by
  induction l generalizing seen with
  | nil => exact List.Pairwise.nil
  | cons x xs ih =>
      simp only [dedupAux]
      by_cases hx : x.fullName ∈ seen
      · rw [if_pos hx]; exact ih seen
      · rw [if_neg hx]
        refine List.Pairwise.cons ?_ (ih _)
        intro w hw
        have := (mem_dedupAux hw).1
        intro hc
        exact this (hc ▸ List.mem_cons_self _ _)

theorem dedupAux_sublist (seen : List String) (l : List RepositoryEntity) :
    (dedupAux seen l).Sublist l := by
  induction l generalizing seen with
  | nil => exact List.Sublist.refl _
  | cons x xs ih =>
      simp only [dedupAux]
      by_cases hx : x.fullName ∈ seen
      · rw [if_pos hx]; exact (ih seen).cons x
      · rw [if_neg hx]; exact (ih _).cons₂ x

theorem dedupAux_complete {seen : List String} {l : List RepositoryEntity}
    {v : RepositoryEntity} (hv : v ∈ l) (hs : v.fullName ∉ seen) :
    ∃ w ∈ dedupAux seen l, w.fullName = v.fullName := by
  induction l generalizing seen with
  | nil => cases hv
  | cons x xs ih =>
      simp only [dedupAux]
      by_cases hx : x.fullName ∈ seen
      · rw [if_pos hx]
        rcases List.mem_cons.mp hv with rfl | hv'
        · exact absurd hx hs
        · exact ih hv' hs
      · rw [if_neg hx]
        rcases List.mem_cons.mp hv with rfl | hv'
        · exact ⟨v, List.mem_cons_self _ _, rfl⟩
        · by_cases heq : v.fullName = x.fullName
          · exact ⟨x, List.mem_cons_self _ _, heq.symm⟩
          · obtain ⟨w, hw, hwn⟩ := ih hv' (by
              intro hc
              rcases List.mem_cons.mp hc with hc' | hc'
              · exact heq hc'
              · exact hs hc')
            exact ⟨w, List.mem_cons_of_mem _ hw, hwn⟩

theorem dedupAux_first {seen : List String} {l : List RepositoryEntity}
    {w : RepositoryEntity} (hw : w ∈ dedupAux seen l) :
    l.find? (fun r => r.fullName = w.fullName) = some w := by
  induction l generalizing seen with
  | nil => simp [dedupAux] at hw
  | cons x xs ih =>
      simp only [dedupAux] at hw
      by_cases hx : x.fullName ∈ seen
      · rw [if_pos hx] at hw
        have hne : w.fullName ∉ seen := (mem_dedupAux hw).1
        have hxw : ¬ (x.fullName = w.fullName) := fun hc => hne (hc ▸ hx)
        rw [List.find?_cons_of_neg _ (by simpa using hxw)]
        exact ih hw
      · rw [if_neg hx] at hw
        rcases List.mem_cons.mp hw with rfl | hw'
        · exact List.find?_cons_of_pos _ (by simp)
        · have hne : w.fullName ∉ x.fullName :: seen := (mem_dedupAux hw').1
          have hxw : ¬ (x.fullName = w.fullName) := by
            intro hc
            exact hne (hc ▸ List.mem_cons_self _ _)
          rw [List.find?_cons_of_neg _ (by simpa using hxw)]
          exact ih hw'

theorem foldl_dedupStep_eq (l : List RepositoryEntity) :
    ∀ acc, l.foldl dedupStep acc = acc ++ dedupAux (acc.map (·.fullName)) l := by
  induction l with
  | nil => intro acc; simp [dedupAux]
  | cons v xs ih =>
      intro acc
      simp only [List.foldl_cons, dedupAux]
      by_cases hmem : v.fullName ∈ acc.map (·.fullName)
      · have : ∃ r ∈ acc, r.fullName = v.fullName := by
          obtain ⟨r, hr, hrn⟩ := List.mem_map.mp hmem
          exact ⟨r, hr, hrn⟩
        have hfind : (acc.find? (fun repo => repo.fullName = v.fullName)).isSome := by
          rw [List.find?_isSome]
          obtain ⟨r, hr, hrn⟩ := this
          exact ⟨r, hr, by simpa using hrn⟩
        have hstep : dedupStep acc v = acc := by
          unfold dedupStep
          obtain ⟨p, hp⟩ := Option.isSome_iff_exists.mp hfind
          rw [hp]
        rw [hstep, ih acc, if_pos hmem]
      · have hfind : acc.find? (fun repo => repo.fullName = v.fullName) = none := by
          rw [List.find?_eq_none]
          intro r hr
          simp only [decide_eq_true_eq]
          intro hc
          exact hmem (List.mem_map.mpr ⟨r, hr, hc⟩)
        have hstep : dedupStep acc v = acc ++ [v] := by
          unfold dedupStep; rw [hfind]
        rw [hstep, ih (acc ++ [v]), if_neg hmem]
        rw [List.append_assoc]
        simp only [List.singleton_append]
        congr 2
        apply dedupAux_congr
        intro s
        simp [List.mem_append, or_comm]

theorem dedupByFullName_eq (l : List RepositoryEntity) :
    dedupByFullName l = dedupAux [] l := by
  unfold dedupByFullName
  rw [foldl_dedupStep_eq l []]
  rfl

/-! ## Claim C5 -/

/-- C5: for every gathering run combining an explicit repository name list
and/or an owner, the gathered result contains no two entities with the same
`fullName`; deduplication keeps the first occurrence of each `fullName`
(every kept entity is the first entity of the discovery list bearing its
`fullName`, and every discovered `fullName` is represented) and preserves the
original discovery order of the kept entities (the result is a sublist of the
discovery list). -/
theorem gather_dedups_by_fullName (byName byOwner : List RepositoryEntity)
    (reposOpt : List String) (owner : Option String) :
    (fetchRepositories byName byOwner reposOpt owner).Pairwise
        (fun a b => a.fullName ≠ b.fullName) ∧
    (fetchRepositories byName byOwner reposOpt owner).Sublist
        (discoveryList byName byOwner reposOpt owner) ∧
    (∀ v ∈ discoveryList byName byOwner reposOpt owner,
      ∃ w ∈ fetchRepositories byName byOwner reposOpt owner,
        w.fullName = v.fullName) ∧
    (∀ w ∈ fetchRepositories byName byOwner reposOpt owner,
      (discoveryList byName byOwner reposOpt owner).find?
        (fun r => r.fullName = w.fullName) = some w) := by
  unfold fetchRepositories
  rw [dedupByFullName_eq]
  refine ⟨dedupAux_pairwise [] _, dedupAux_sublist [] _, ?_, ?_⟩
  · intro v hv
    exact dedupAux_complete hv (by simp)
  · intro w hw
    exact dedupAux_first hw

/-- Witness for C5 at a concrete overlapping gathering run: `o/a` appears
both in the by-name results and the by-owner results, and the kept entity is
the first occurrence. -/
theorem gather_dedups_by_fullName_witness :
    (discoveryList [exRepoA, exRepoB] [exRepoA] ["o/a", "o/b"] (some "o")).find?
      (fun r => r.fullName = exRepoA.fullName) = some exRepoA := by
  have h := gather_dedups_by_fullName [exRepoA, exRepoB] [exRepoA] ["o/a", "o/b"]
    (some "o")
  exact h.2.2.2 exRepoA (by decide)

/-! ## Claim C6 -/

/-- C6: when resolving repositories by owner, the adapter queries user
repositories first; it queries organization repositories iff the user query
returned an empty or non-list result; the response used is the user response
when it is a non-empty list and the organization response otherwise; the
queries are issued in that fixed order and never both when the first yields
results. -/
theorem owner_resolution_order (userResult orgResult : ApiValue) :
    (fetchRepositoriesByOwner userResult orgResult).1.head? =
        some OwnerQuery.userRepos ∧
    (OwnerQuery.orgRepos ∈ (fetchRepositoriesByOwner userResult orgResult).1 ↔
      lacksRepos userResult = true) ∧
    ((fetchRepositoriesByOwner userResult orgResult).1 = [OwnerQuery.userRepos] ∨
      (fetchRepositoriesByOwner userResult orgResult).1 =
        [OwnerQuery.userRepos, OwnerQuery.orgRepos]) ∧
    (fetchRepositoriesByOwner userResult orgResult).2 =
      (if lacksRepos userResult then orgResult else userResult) := by
  unfold fetchRepositoriesByOwner
  cases h : lacksRepos userResult <;> simp [h]

/-! ## Claim C7 -/

/-- Helper for C7: when every per-repository manifest fetch either succeeds
or fails with a 404, `fetchPackageDefinitions` succeeds and returns, in
order, each repository with its manifest attached when the fetch succeeded
and unchanged when it 404ed. -/
theorem fetchPackageDefinitions_tolerant
    (getPackageJson : RepositoryEntity → Except JsError PackageDefinition) :
    ∀ repos : List RepositoryEntity,
    (∀ r ∈ repos, ∀ e, getPackageJson r = .error e → e.statusCode = some 404) →
    fetchPackageDefinitions getPackageJson repos =
      .ok (repos.map (fun r =>
        match getPackageJson r with
        | .ok pd => { r with packageDefinition := some pd }
        | .error _ => r)) := by
  intro repos
  induction repos with
  | nil => intro _; rfl
  | cons r rs ih =>
      intro h
      have hrs : ∀ x ∈ rs, ∀ e, getPackageJson x = .error e →
          e.statusCode = some 404 :=
        fun x hx => h x (List.mem_cons_of_mem _ hx)
      simp only [fetchPackageDefinitions, List.map_cons]
      cases hg : getPackageJson r with
      | ok pd =>
          simp only [fetchPackageDefinitionOne, hg, ih hrs]
      | error e =>
          have h404 : e.statusCode = some 404 := h r (List.mem_cons_self _ _) e hg
          simp only [fetchPackageDefinitionOne, hg, h404, if_pos, ih hrs]

/-- C7: `fetchPackageDefinitions` attaches the fetched `packageDefinition` to
each repository; a per-repository fetch failure with `statusCode` 404 returns
the entity unchanged instead of raising; any other fetch error propagates;
and a run over repositories whose fetches succeed or 404 completes without
aborting, dropping no repository from the returned list. -/
theorem fetchPackageDefinitions_spec
    (getPackageJson : RepositoryEntity → Except JsError PackageDefinition)
    (repos : List RepositoryEntity) :
    (∀ r pd, getPackageJson r = .ok pd →
      fetchPackageDefinitionOne getPackageJson r =
        .ok { r with packageDefinition := some pd }) ∧
    (∀ r e, getPackageJson r = .error e → e.statusCode = some 404 →
      fetchPackageDefinitionOne getPackageJson r = .ok r) ∧
    (∀ r e, getPackageJson r = .error e → e.statusCode ≠ some 404 →
      fetchPackageDefinitionOne getPackageJson r = .error e) ∧
    ((∀ r ∈ repos, ∀ e, getPackageJson r = .error e → e.statusCode = some 404) →
      fetchPackageDefinitions getPackageJson repos =
        .ok (repos.map (fun r =>
          match getPackageJson r with
          | .ok pd => { r with packageDefinition := some pd }
          | .error _ => r))) := by
  refine ⟨?_, ?_, ?_, fetchPackageDefinitions_tolerant getPackageJson repos⟩
  · intro r pd hg
    simp only [fetchPackageDefinitionOne, hg]
  · intro r e hg h404
    simp only [fetchPackageDefinitionOne, hg, h404, if_pos]
  · intro r e hg h404
    simp only [fetchPackageDefinitionOne, hg, if_neg h404]

/-- Witness for C7: a concrete run over a repository whose manifest exists
and one whose manifest fetch 404s completes, attaching to the first and
leaving the second unchanged. -/
theorem fetchPackageDefinitions_spec_witness :
    fetchPackageDefinitions exGetPackageJson [exRepoA, exRepoNoManifest] =
      .ok [{ exRepoA with packageDefinition := some exPackageDefA },
           exRepoNoManifest] := by
  have h := (fetchPackageDefinitions_spec exGetPackageJson
    [exRepoA, exRepoNoManifest]).2.2.2
  have hall : ∀ r ∈ [exRepoA, exRepoNoManifest], ∀ e,
      exGetPackageJson r = .error e → e.statusCode = some 404 := by
    intro r hr e he
    rcases List.mem_cons.mp hr with rfl | hr'
    · rw [show exGetPackageJson exRepoA = .ok exPackageDefA from rfl] at he
      cases he
    · rcases List.mem_cons.mp hr' with rfl | hr''
      · rw [show exGetPackageJson exRepoNoManifest = .error (.http 404) from rfl] at he
        cases he
        rfl
      · cases hr''
  rw [h hall]
  rfl

/-! ## Claim C2 -/

theorem classifyDev_isSome (tN tV : String) (repo : RepositoryEntity)
    (d : Option String) :
    (classifyDev tN tV repo d).isSome ↔ ∃ cur, d = some cur ∧ cur ≠ tV := by
  cases d with
  | none => simp [classifyDev]
  | some cur => by_cases h : cur = tV <;> simp [classifyDev, h]

theorem classifyDev_eq_some (tN tV : String) (repo : RepositoryEntity)
    (cur : String) (h : cur ≠ tV) :
    classifyDev tN tV repo (some cur) =
      some (withRelationship repo "dev" tN tV cur) := by
  simp [classifyDev, h]

/-- C2: the classifier includes a repository iff the decoded manifest's
`dependencies` or `devDependencies` map declares the target package with a
version different from the target version (so a repository whose manifest
lacks the package, declares exactly the target version, or is absent
entirely, is excluded); an included repository carries a
`dependencyRelationship` whose `type` is `"prod"` or `"dev"` according to
which map matched and whose `currentVersion` is the previously-declared
version; the list-level result keeps exactly the included repositories. -/
theorem classifier_spec (repos : List RepositoryEntity)
    (targetName targetVersion : String) :
    (∀ r', r' ∈ repositoriesByDependencyUpgrade repos targetName targetVersion ↔
      ∃ repo ∈ repos, classifyRepository targetName targetVersion repo = some r') ∧
    (∀ repo, (classifyRepository targetName targetVersion repo).isSome ↔
      (∃ pd, repo.packageDefinition = some pd ∧
        ((∃ cur, depLookup pd.decoded.dependencies targetName = some cur ∧
            cur ≠ targetVersion) ∨
         (∃ cur, depLookup pd.decoded.devDependencies targetName = some cur ∧
            cur ≠ targetVersion)))) ∧
    (∀ repo pd cur, repo.packageDefinition = some pd →
      depLookup pd.decoded.dependencies targetName = some cur →
      cur ≠ targetVersion →
      classifyRepository targetName targetVersion repo =
        some (withRelationship repo "prod" targetName targetVersion cur)) ∧
    (∀ repo pd cur, repo.packageDefinition = some pd →
      (∀ c, depLookup pd.decoded.dependencies targetName = some c →
        c = targetVersion) →
      depLookup pd.decoded.devDependencies targetName = some cur →
      cur ≠ targetVersion →
      classifyRepository targetName targetVersion repo =
        some (withRelationship repo "dev" targetName targetVersion cur)) := by
  refine ⟨?_, ?_, ?_, ?_⟩
  · intro r'
    simp [repositoriesByDependencyUpgrade, List.mem_filterMap]
  · intro repo
    cases hp : repo.packageDefinition with
    | none => simp [classifyRepository, hp]
    | some pd =>
        simp only [classifyRepository, hp]
        cases hd : depLookup pd.decoded.dependencies targetName with
        | none =>
            rw [classifyDev_isSome]
            simp [hd]
        | some cur =>
            dsimp only
            by_cases hc : cur = targetVersion
            · rw [if_neg (show ¬ (cur ≠ targetVersion) by simpa using hc),
                classifyDev_isSome]
              simp [hd, hc]
            · rw [if_pos hc]
              simp [hd, hc]
  · intro repo pd cur hp hd hc
    simp only [classifyRepository, hp, hd]
    rw [if_pos hc]
  · intro repo pd cur hp hdeps hdev hc
    simp only [classifyRepository, hp]
    cases hd : depLookup pd.decoded.dependencies targetName with
    | none => rw [hdev]; exact classifyDev_eq_some _ _ _ _ hc
    | some c =>
        dsimp only
        rw [if_neg (show ¬ (c ≠ targetVersion) by simpa using hdeps c hd), hdev]
        exact classifyDev_eq_some _ _ _ _ hc

/-- Witness for C2: the fixture end-to-end classification — `o/a` declares
`lodash@4.17.0` as a prod dependency, the target is `lodash@4.17.21`, so it
is included with the prod relationship recording the old version. -/
theorem classifier_spec_witness :
    classifyRepository "lodash" "4.17.21" exRepoA0 =
      some (withRelationship exRepoA0 "prod" "lodash" "4.17.21" "4.17.0") := by
  exact (classifier_spec [exRepoA0] "lodash" "4.17.21").2.2.1 exRepoA0
    exPackageDefA "4.17.0" rfl rfl (by decide)

/-! ## Claim C8 -/

/-- C8: in a single-package publish-pipeline run in which every invoked
collaborator operation succeeds, the steps execute in the fixed order
mutate-manifest, format, lockfile regeneration (fetch, then generation when a
lockfile was found), branch creation, commit, pull request; the lockfile step
is entered iff the `noLockfile` option is unset and the pull-request step
runs iff the `noPullRequest` option is unset. -/
theorem pipeline_step_order (adapter : AdapterStub)
    (fp : Manifest → Except JsError String)
    (create : String → String → Option String → Except JsError String)
    (options : Options) (repo : RepositoryEntity) (pd : PackageDefinition)
    (rel : DependencyRelationship) (packageName packageVersion : String)
    (lockResult : Option LockfileEntity)
    (hpd : repo.packageDefinition = some pd)
    (hrel : repo.dependencyRelationship = some rel)
    (hfp : ∀ m, ∃ s, fp m = .ok s)
    (hlock : ∀ r, adapter.fetchLockfileDefinition r = .ok lockResult)
    (hcreate : ∀ s pm reg, ∃ t, create s pm reg = .ok t)
    (hbranch : ∀ r bn, adapter.createBranch r bn = .ok ())
    (hcommit : ∀ r bn f l m, adapter.commitPackageDefinition r bn f l m = .ok ())
    (hpr : ∀ r bn p, adapter.createPullRequest r bn p = .ok ()) :
    (publishPipeline adapter fp create options repo packageName packageVersion).1 =
      [Step.mutateManifest, Step.format] ++
        (if options.noLockfile then [] else
          [Step.fetchLockfile] ++
            (if lockResult.isSome then [Step.generateLockfile] else [])) ++
        [Step.createBranch, Step.commit] ++
        (if options.noPullRequest then [] else [Step.pullRequest]) ∧
    (Step.fetchLockfile ∈
        (publishPipeline adapter fp create options repo packageName packageVersion).1 ↔
      options.noLockfile = false) ∧
    (Step.pullRequest ∈
        (publishPipeline adapter fp create options repo packageName packageVersion).1 ↔
      options.noPullRequest = false) := by
  obtain ⟨m', hm'⟩ : ∃ m',
      updateRepositoryMutate repo packageName packageVersion = .ok m' := by
    simp [updateRepositoryMutate, hpd, hrel]
  obtain ⟨fmt, hfmt⟩ := hfp m'
  have htrace :
      (publishPipeline adapter fp create options repo packageName packageVersion).1 =
        [Step.mutateManifest, Step.format] ++
          (if options.noLockfile then [] else
            [Step.fetchLockfile] ++
              (if lockResult.isSome then [Step.generateLockfile] else [])) ++
          [Step.createBranch, Step.commit] ++
          (if options.noPullRequest then [] else [Step.pullRequest]) := by
    rcases hl : lockResult with _ | lf
    · cases hnl : options.noLockfile <;> cases hnp : options.noPullRequest <;>
        simp [publishPipeline, hm', commitUpdates, stepBind, lockfilePhase,
          commitPhase, prPhase, getCommitMessage, getPullRequest, hfmt,
          hl ▸ hlock, hbranch, hcommit, hpr, hnl, hnp, hrel]
    · obtain ⟨t, ht⟩ := hcreate fmt lf.packageManager options.registry
      cases hnl : options.noLockfile <;> cases hnp : options.noPullRequest <;>
        simp [publishPipeline, hm', commitUpdates, stepBind, lockfilePhase,
          commitPhase, prPhase, getCommitMessage, getPullRequest, hfmt,
          hl ▸ hlock, hbranch, hcommit, hpr, ht, hnl, hnp, hrel]
  refine ⟨htrace, ?_, ?_⟩
  · rw [htrace]
    cases hnl : options.noLockfile <;> cases lockResult <;> simp
  · rw [htrace]
    cases hnp : options.noPullRequest <;>
      cases hnl : options.noLockfile <;> cases lockResult <;> simp

/-- Witness for C8: the fixture run with both options unset and a lockfile
found passes through all seven steps in order. -/
theorem pipeline_step_order_witness :
    (publishPipeline exAdapterAllOk exFormat exCreateLockfile {} exRepoA
        "lodash" "4.17.21").1 =
      [Step.mutateManifest, Step.format, Step.fetchLockfile,
       Step.generateLockfile, Step.createBranch, Step.commit,
       Step.pullRequest] := by
  have h := pipeline_step_order exAdapterAllOk exFormat exCreateLockfile {}
    exRepoA exPackageDefA exRelA "lodash" "4.17.21" (some exLockfile) rfl rfl
    (fun m => ⟨m.name, rfl⟩) (fun _ => rfl) (fun _ _ _ => ⟨"lock", rfl⟩)
    (fun _ _ => rfl) (fun _ _ _ _ _ => rfl) (fun _ _ _ => rfl)
  rw [h.1]
  rfl

/-! ## Claim C9 -/

/-- C9: with lockfile regeneration enabled (`noLockfile` unset), the pipeline
calls the adapter's `fetchLockfileDefinition`; when it yields `undefined`,
regeneration is skipped entirely with no error and the repository is passed
on unchanged; when it yields an entity, the entity is attached to the
repository as `lockfileEntity` and the lockfile generator is invoked with the
formatted manifest, the entity's package-manager identifier and the registry
option, its output becoming the updated lockfile. -/
theorem lockfile_regeneration_spec (adapter : AdapterStub)
    (create : String → String → Option String → Except JsError String)
    (options : Options) (repo : RepositoryEntity) (fmt : String)
    (henabled : options.noLockfile = false) :
    (adapter.fetchLockfileDefinition repo = .ok none →
      lockfilePhase adapter create options repo fmt =
        ([Step.fetchLockfile], .ok (repo, none))) ∧
    (∀ lf txt, adapter.fetchLockfileDefinition repo = .ok (some lf) →
      create fmt lf.packageManager options.registry = .ok txt →
      lockfilePhase adapter create options repo fmt =
        ([Step.fetchLockfile, Step.generateLockfile],
         .ok ({ repo with lockfileEntity := some lf }, some txt))) := by
  constructor
  · intro hfetch
    simp [lockfilePhase, henabled, hfetch]
  · intro lf txt hfetch hcreate
    simp [lockfilePhase, henabled, hfetch, hcreate]

/-- Witness for C9: the fixture adapter finds `exLockfile`, the generator is
invoked and its output is attached. -/
theorem lockfile_regeneration_spec_witness :
    lockfilePhase exAdapterAllOk exCreateLockfile {} exRepoA "fmt" =
      ([Step.fetchLockfile, Step.generateLockfile],
       .ok ({ exRepoA with lockfileEntity := some exLockfile }, some "lock")) := by
  exact (lockfile_regeneration_spec exAdapterAllOk exCreateLockfile {} exRepoA
    "fmt" rfl).2 exLockfile "lock" rfl rfl

/-! ## Claim C4 -/

/-- C4: in the adapter's commit operation, when probing for the existing
remote `package-lock.json` fails with a 404, the failure is swallowed, the
lockfile write is abandoned and the commit completes with the `package.json`
write only; when the probe fails with any other error, that error propagates
out of the commit operation. -/
theorem commit_lockfile_probe_404_tolerated (api : ApiStub)
    (repository : RepositoryEntity) (branchName packageDefinition lf : String)
    (rel : DependencyRelationship) (pd : PackageDefinition)
    (hrel : repository.dependencyRelationship = some rel)
    (hpd : repository.packageDefinition = some pd) :
    (∀ e, api.getContents repository.fullName "package-lock.json" = .error e →
      e.statusCode = some 404 →
      (∀ w, api.createContents w = .ok ()) →
      GitHub.commitPackageDefinition api repository branchName
          packageDefinition (some lf) =
        .ok [{ branch := branchName, path := "package.json", sha := pd.sha,
               contents := packageDefinition,
               message := commitMessageFor rel "package.json" }]) ∧
    (∀ e, api.getContents repository.fullName "package-lock.json" = .error e →
      e.statusCode ≠ some 404 →
      GitHub.commitPackageDefinition api repository branchName
          packageDefinition (some lf) =
        .error e) := by
  constructor
  · intro e hprobe h404 hwrite
    simp [GitHub.commitPackageDefinition, hrel, hpd, hprobe, h404,
      runWriteSeries, hwrite]
  · intro e hprobe h404
    simp [GitHub.commitPackageDefinition, hrel, hpd, hprobe, h404]

/-- Witness for C4: committing to the fixture repository against a REST layer
with no remote lockfile succeeds with the manifest write alone. -/
theorem commit_lockfile_probe_404_tolerated_witness :
    GitHub.commitPackageDefinition exApi404Lock exRepoA "turnup/lodash@4.17.21"
        "fmt" (some "lock") =
      .ok [{ branch := "turnup/lodash@4.17.21", path := "package.json",
             sha := "shaA", contents := "fmt",
             message := commitMessageFor exRelA "package.json" }] := by
  exact (commit_lockfile_probe_404_tolerated exApi404Lock exRepoA
    "turnup/lodash@4.17.21" "fmt" "lock" exRelA exPackageDefA rfl rfl).1
    (.http 404) rfl rfl (fun _ => rfl)

/-! ## Claim C10 -/

theorem getCommitMessage_all (repo : RepositoryEntity) :
    getCommitMessage repo ALL_ACTION =
      .ok "[turnup] Auto update of package dependencies" := by
  have h : ¬ (ALL_ACTION = ACTION) := by decide
  simp [getCommitMessage, h]

/-- C10: the adapter's commit and pull-request operations dereference
`repository.dependencyRelationship` unconditionally, so on a repository
without one — as holds for every repository in the `updateAll` bulk flow,
which never attaches it — they throw a `TypeError` instead of completing; in
particular, a bulk pipeline run that reaches the commit step fails there. -/
theorem bulk_commit_requires_relationship (api : ApiStub)
    (lockfileDef : RepositoryEntity → Except JsError (Option LockfileEntity))
    (fp : Manifest → Except JsError String)
    (update : String → String → Option String → Except JsError String)
    (options : Options) (repo : RepositoryEntity) (pd : PackageDefinition)
    (hrel : repo.dependencyRelationship = none)
    (hpd : repo.packageDefinition = some pd)
    (hnl : options.noLockfile = true)
    (hfp : ∀ m, ∃ s, fp m = .ok s)
    (href : ∀ f b, ∃ ro, api.getRef f b = .ok ro)
    (hcr : ∀ f b s, api.createRef f b s = .ok ()) :
    (∀ bn f l, GitHub.commitPackageDefinition api repo bn f l =
      .error (.typeError "Cannot read property type of undefined")) ∧
    (∀ bn, GitHub.createPullRequest api repo bn =
      .error (.typeError "Cannot read property packageName of undefined")) ∧
    (updateAllPipeline (gitHubAdapter api lockfileDef) fp update options repo).2 =
      .error (.typeError "Cannot read property type of undefined") := by
  refine ⟨?_, ?_, ?_⟩
  · intro bn f l
    simp [GitHub.commitPackageDefinition, hrel]
  · intro bn
    simp [GitHub.createPullRequest, hrel]
  · obtain ⟨fmt, hfmt⟩ := hfp pd.decoded
    obtain ⟨ro, hro⟩ := href repo.fullName repo.defaultBranch
    simp [updateAllPipeline, hpd, commitUpdates, stepBind, lockfilePhase, hnl,
      gitHubAdapter, GitHub.createBranch, hro, hcr, commitPhase,
      getCommitMessage_all, hfmt, GitHub.commitPackageDefinition, hrel]

/-- Witness for C10: the fixture bulk run over `o/a` before classification
(no `dependencyRelationship`) fails at the commit step with the
`TypeError`. -/
theorem bulk_commit_requires_relationship_witness :
    (updateAllPipeline (gitHubAdapter exApiAllOk (fun _ => .ok none)) exFormat
        exCreateLockfile { noLockfile := true } exRepoA0).2 =
      .error (.typeError "Cannot read property type of undefined") := by
  exact (bulk_commit_requires_relationship exApiAllOk (fun _ => .ok none)
    exFormat exCreateLockfile { noLockfile := true } exRepoA0 exPackageDefA
    rfl rfl rfl (fun m => ⟨m.name, rfl⟩) (fun _ _ => ⟨{ sha := "head" }, rfl⟩)
    (fun _ _ _ => rfl)).2.2

/-! ## Claim C1 -/

/-- C1 (evaluation at the failing input): `updateRepository` launches
`commitUpdates` without `await` (update.js 69), so each series task resolves
as soon as its synchronous prefix finishes. Run over three repositories where
the second's pipeline fails (its branch creation rejects with HTTP 500), the
series invokes all three pipelines — including the third — and resolves
successfully, so the HTTP 500 never reaches the `catch`/`fatal` path of
`update`; it remains an unobserved rejection of the detached `commitUpdates`
promise. -/
theorem update_series_continues_after_pipeline_error :
    (updateSeries exAdapterBranchFailsOnB exFormat exCreateLockfile {}
        "lodash" "4.17.21" [exRepoA, exRepoB, exRepoC]).1 =
      [exRepoA, exRepoB, exRepoC] ∧
    (updateSeries exAdapterBranchFailsOnB exFormat exCreateLockfile {}
        "lodash" "4.17.21" [exRepoA, exRepoB, exRepoC]).2.1 =
      [.ok (), .error (.http 500), .ok ()] ∧
    (updateSeries exAdapterBranchFailsOnB exFormat exCreateLockfile {}
        "lodash" "4.17.21" [exRepoA, exRepoB, exRepoC]).2.2 = .ok () :=
  ⟨rfl, rfl, rfl⟩

/-! ## Claim C3 -/

theorem heap_getD_set_self (h : Heap) (a : Nat) (m d : Manifest)
    (ha : a < h.length) : (h.set a m).getD a d = m := by
  induction h generalizing a with
  | nil => simp at ha
  | cons x xs ih =>
      cases a with
      | zero => rfl
      | succ n =>
          simp only [List.length_cons] at ha
          simpa [List.set, List.getD] using ih n (by omega)

theorem depLookup_depSet (m : DepMap) (k v : String) :
    depLookup (depSet m k v) k = some v := by
  induction m with
  | nil => simp [depSet, depLookup, List.find?]
  | cons p rest ih =>
      simp only [depSet]
      by_cases h : p.1 = k
      · rw [if_pos h]
        unfold depLookup
        rw [List.find?_cons_of_pos _ (by simp)]
      · rw [if_neg h]
        unfold depLookup at ih ⊢
        rw [List.find?_cons_of_neg _ (by simpa using h)]
        exact ih

/-- C3 counterexample: the manifest-mutation step does not leave the received
entity value unchanged. On the fixture heap, running the mutation step for
`lodash@4.17.21` over entity `o/a` (whose `packageDefinition.decoded` points
at the heap's only manifest) writes through that pointer, and the manifest
observable from the very entity the step received now differs from before. -/
theorem mutation_alters_received_entity :
    mutateManifestStep exHeap0 exRepoRefA "lodash" "4.17.21" =
      .ok ([{ exManifestA with dependencies := [("lodash", "4.17.21")] }], 0) ∧
    observeManifest [{ exManifestA with dependencies := [("lodash", "4.17.21")] }]
        exRepoRefA ≠
      observeManifest exHeap0 exRepoRefA :=
  ⟨rfl, by decide⟩

/-- C3 amended: entity records are persistent values, but the single-package
pipeline's manifest-mutation step mutates the decoded manifest object in
place through the reference held by the entity it received: whenever the
declared version of the target package differs from the target version, the
manifest observable from the upstream entity changes, and the manifest handed
downstream is that same (now updated) heap object. -/
theorem mutation_in_place_spec (h : Heap) (repo : RepositoryEntityRef)
    (pd : PackageDefinitionRef) (rel : DependencyRelationship)
    (packageName packageVersion : String)
    (hpd : repo.packageDefinition = some pd)
    (hrel : repo.dependencyRelationship = some rel)
    (hbound : pd.decoded < h.length)
    (hdiff : (if rel.type = "dev" then
        depLookup (h.getD pd.decoded default).devDependencies packageName
      else
        depLookup (h.getD pd.decoded default).dependencies packageName) ≠
      some packageVersion) :
    ∃ h', mutateManifestStep h repo packageName packageVersion =
        .ok (h', pd.decoded) ∧
      observeManifest h' repo ≠ observeManifest h repo ∧
      observeManifest h' repo = some (h'.getD pd.decoded default) := by
  simp only [mutateManifestStep, hpd, hrel]
  set m := h.getD pd.decoded default with hm
  by_cases hty : rel.type = "dev"
  · rw [if_pos hty] at hdiff
    refine ⟨_, by rw [if_pos hty], ?_, ?_⟩
    · have hread : ((h.set pd.decoded
          { m with devDependencies := depSet m.devDependencies packageName packageVersion }).getD
            pd.decoded default) =
          { m with devDependencies := depSet m.devDependencies packageName packageVersion } :=
        heap_getD_set_self h pd.decoded _ default hbound
      simp only [observeManifest, hpd, Option.map_some']
      rw [hread]
      intro hc
      have hmeq := Option.some.inj hc
      have : depLookup m.devDependencies packageName = some packageVersion := by
        have := congrArg Manifest.devDependencies hmeq
        simp only at this
        rw [← this, depLookup_depSet]
      exact hdiff this
    · simp only [observeManifest, hpd, Option.map_some']
  · rw [if_neg hty] at hdiff
    refine ⟨_, by rw [if_neg hty], ?_, ?_⟩
    · have hread : ((h.set pd.decoded
          { m with dependencies := depSet m.dependencies packageName packageVersion }).getD
            pd.decoded default) =
          { m with dependencies := depSet m.dependencies packageName packageVersion } :=
        heap_getD_set_self h pd.decoded _ default hbound
      simp only [observeManifest, hpd, Option.map_some']
      rw [hread]
      intro hc
      have hmeq := Option.some.inj hc
      have : depLookup m.dependencies packageName = some packageVersion := by
        have := congrArg Manifest.dependencies hmeq
        simp only at this
        rw [← this, depLookup_depSet]
      exact hdiff this
    · simp only [observeManifest, hpd, Option.map_some']

/-- Witness for the amended C3 at the fixture input: the upstream entity
observes a changed manifest after the mutation step. -/
theorem mutation_in_place_spec_witness :
    observeManifest [{ exManifestA with dependencies := [("lodash", "4.17.21")] }]
        exRepoRefA ≠
      observeManifest exHeap0 exRepoRefA := by
  obtain ⟨h', heq, hne, -⟩ := mutation_in_place_spec exHeap0 exRepoRefA
    { decoded := 0, sha := "shaA" } exRelA "lodash" "4.17.21" rfl rfl
    (by decide) (by decide)
  have h2 : mutateManifestStep exHeap0 exRepoRefA "lodash" "4.17.21" =
      .ok ([{ exManifestA with dependencies := [("lodash", "4.17.21")] }], 0) := rfl
  have h3 := h2.symm.trans heq
  simp only [Except.ok.injEq, Prod.mk.injEq] at h3
  rw [← h3.1] at hne
  exact hne

end Turnup
